import Mathlib

/-!
# Verification of the f5-telemetry-streaming pipeline engine

Shallow embedding of the parts of the telemetry-streaming agent that the
specification's claims are about: the normalizers (`src/lib/utils/normalize.js`),
the Google Cloud token cache, the consumer forwarder, the config worker
(`processDeclaration` / `load`), the declaration resolver for pull consumers,
the logger's secret masking and the data-receiver restart policy.

JavaScript idioms are modelled as follows: objects whose field set matters are
Lean structures; plain objects used as dictionaries are association lists with
JS assignment semantics (overwrite in place, append when absent); `undefined`
is `Option.none`; thrown exceptions and rejected promises are `Except.error`;
the current time is passed explicitly.
-/

namespace F5TS

/-! ## Normalizers (`src/src/lib/utils/normalize.js`) -/

/-- JS `String.prototype.split(sep)` for a one-character separator, over the
character list of the string: splits at every occurrence of the separator,
keeping empty pieces (so `"".split(':') = ['']`). -/
def splitOnChar (sep : Char) : List Char → List (List Char)
  | [] => [[]]
  | c :: rest =>
    match splitOnChar sep rest with
    | [] => [[c]]
    | group :: groups =>
      if c = sep then [] :: group :: groups else (c :: group) :: groups

/-- JS `Array.prototype.join(':')` over character lists. -/
def joinWithColon : List (List Char) → List Char
  | [] => []
  | [g] => g
  | g :: g2 :: gs => g ++ ':' :: joinWithColon (g2 :: gs)

/-- One octet of a MAC address, as the `map` callback of `_formatMACAddress`
formats it: uppercase the piece (`toUpperCase`), then left-pad a one-character
piece with `0`. -/
def formatMACOctet (item : List Char) : List Char :=
  let item := item.map Char.toUpper
  if item.length == 1 then '0' :: item else item

/-- Embedding of `normalize.js` `_formatMACAddress`: if the string holds no `:`
(`mac.indexOf(':') === -1`) it is returned unchanged, otherwise it is split on
`:`, each piece is uppercased and left-padded to two characters, and the
pieces are re-joined with `:`. -/
def _formatMACAddress (mac : String) : String :=
  if !(mac.toList.contains ':') then mac
  else ⟨joinWithColon ((splitOnChar ':' mac.toList).map formatMACOctet)⟩

/-- A JS object element of the arrays handed to `_convertArrayToMap`:
an ordered list of (field name, field value) pairs. Field access `i[k]`
yields `none` (JS `undefined`) when the field is absent. -/
def JSEntry := List (String × String)
deriving DecidableEq

/-- JS property read `i[k]`. -/
def entryGet (i : JSEntry) (k : String) : Option String :=
  (List.find? (fun kv => kv.1 == k) i).map (fun kv => kv.2)

/-- JS coercion of a possibly-`undefined` value to a property-key/template
string: `undefined` prints as `"undefined"`. -/
def jsStr (v : Option String) : String := v.getD "undefined"

/-- The key argument of `_convertArrayToMap`: a single field name or a
compound (array) of field names. -/
inductive KeySpec where
  | simple (k : String)
  | compound (ks : List String)
deriving DecidableEq

/-- Options bag of `_convertArrayToMap` (`keyNamePrefix` is called
`keyNamePfx` here). -/
structure ConvertOptions where
  keyNamePfx : Option String := none
  keyNamesSeparator : Option String := none
deriving DecidableEq

/-- The key name `_convertArrayToMap` computes for one array element:
for a compound key, concatenate `sep ++ value` per key field, drop the first
character (`keyName.substring(1)`) and prepend the prefix when present;
for a simple key, the element's value at the key, prefixed when a prefix
is given. -/
def computeKeyName (opts : ConvertOptions) (key : KeySpec) (i : JSEntry) : String :=
  match key with
  | .compound ks =>
      let sep := opts.keyNamesSeparator.getD "_"
      let raw := ks.foldl (fun acc k => acc ++ sep ++ jsStr (entryGet i k)) ""
      let keyName := raw.drop 1
      match opts.keyNamePfx with
      | some p => p ++ keyName
      | none => keyName
  | .simple k =>
      match opts.keyNamePfx with
      | some p => p ++ jsStr (entryGet i k)
      | none => jsStr (entryGet i k)

/-- JS object assignment `ret[k] = v` on an association list built only by
such assignments: overwrite the existing binding in place, append otherwise. -/
def objSet : List (String × JSEntry) → String → JSEntry → List (String × JSEntry)
  | [], k, v => [(k, v)]
  | kv :: rest, k, v => if kv.1 == k then (k, v) :: rest else kv :: objSet rest k v

/-- JS object read `ret[k]` on the association list: value of the first
binding for the key. -/
def objGet : List (String × JSEntry) → String → Option JSEntry
  | [], _ => none
  | kv :: rest, k => if kv.1 == k then some kv.2 else objGet rest k

/-- Embedding of `normalize.js` `_convertArrayToMap`: fold over the array,
assigning `ret[keyName] = i` for each element `i`. (The typed embedding takes
a list, so the `Array.isArray` guard's throwing branch cannot be reached.) -/
def _convertArrayToMap (data : List JSEntry) (key : KeySpec) (opts : ConvertOptions) :
    List (String × JSEntry) :=
  data.foldl (fun ret i => objSet ret (computeKeyName opts key i) i) []

/-- An ASM policy as `getLastAsmChange` reads it: only `versionDatetime`
matters, and only through `Date.parse`. `Date.parse` is a JS builtin external
to the repository, so the embedding carries its result directly:
`parsedVersionDatetime = none` models `Date.parse(...)` returning `NaN`,
`some t` models a successful parse to `t` milliseconds since the epoch. -/
structure AsmPolicy where
  parsedVersionDatetime : Option Int
deriving DecidableEq

/-- Two-digit zero-padded decimal rendering. -/
def pad2 (n : Nat) : String :=
  if n < 10 then "0" ++ toString n else toString n

/-- Three-digit zero-padded decimal rendering. -/
def pad3 (n : Nat) : String :=
  if n < 10 then "00" ++ toString n
  else if n < 100 then "0" ++ toString n
  else toString n

/-- Civil date from a day count since 1970-01-01 (proleptic Gregorian,
day count non-negative). Returns (year, month, day). -/
def civilFromDays (days : Nat) : Nat × Nat × Nat :=
  let z := days + 719468
  let era := z / 146097
  let doe := z % 146097
  let yoe := (doe - doe / 1460 + doe / 36524 - doe / 146096) / 365
  let y := yoe + era * 400
  let doy := doe - (365 * yoe + yoe / 4 - yoe / 100)
  let mp := (5 * doy + 2) / 153
  let d := doy - (153 * mp + 2) / 5 + 1
  let m := if mp < 10 then mp + 3 else mp - 9
  (if m <= 2 then y + 1 else y, m, d)

/-- `Date.prototype.toISOString` for a non-negative count of milliseconds
since the Unix epoch (the only values `getLastAsmChange` can feed it, since
its accumulator starts at `0` and only grows). -/
def toISOString (msSinceEpoch : Int) : String :=
  let ms := msSinceEpoch.toNat
  let days := ms / 86400000
  let msOfDay := ms % 86400000
  let ymd := civilFromDays days
  let hh := msOfDay / 3600000
  let mm := msOfDay % 3600000 / 60000
  let ss := msOfDay % 60000 / 1000
  let mmm := msOfDay % 1000
  toString ymd.1 ++ "-" ++ pad2 ymd.2.1 ++ "-" ++ pad2 ymd.2.2
    ++ "T" ++ pad2 hh ++ ":" ++ pad2 mm ++ ":" ++ pad2 ss
    ++ "." ++ pad3 mmm ++ "Z"

/-- The accumulator update inside `getLastAsmChange`'s `forEach`: adopt the
parsed `versionDatetime` when it parsed (`!Number.isNaN`) and is strictly
greater than the accumulator. -/
def lastAsmStep (acc : Int) (policy : AsmPolicy) : Int :=
  match policy.parsedVersionDatetime with
  | some t => if t > acc then t else acc
  | none => acc

/-- Embedding of `normalize.js` `getLastAsmChange`: empty policy list yields
the empty string; otherwise fold the policies over `lastAsmStep` starting
from `0` and render the result with `toISOString`. -/
def getLastAsmChange (asmPolicies : List AsmPolicy) : String :=
  if asmPolicies.length == 0 then ""
  else toISOString (asmPolicies.foldl lastAsmStep 0)

/-! ## Google Cloud token cache (`src/lib/consumers/shared/gcpUtil` sources) -/

/-- A cached access token: `access_token` plus the `expiresAt` stamp that
`cacheToken` attaches. `expiresAt` is `none` when the field is absent
(JS `undefined`). -/
structure GToken where
  access_token : String
  expiresAt : Option Int
deriving DecidableEq

/-- The `TokenCache` class state: the `cache` object (tokenId → token) and the
`latencyBuffer` in seconds. -/
structure TokenCache where
  cache : List (String × GToken)
  latencyBuffer : Int
deriving DecidableEq

/-- The `TokenCache` constructor: empty cache, `latencyBuffer = 60`. -/
def TokenCache.new : TokenCache :=
  { cache := [], latencyBuffer := 60 }

/-- JS object read `this.cache[tokenId]`. -/
def TokenCache.lookup (tc : TokenCache) (tokenId : String) : Option GToken :=
  (List.find? (fun kv => kv.1 == tokenId) tc.cache).map (fun kv => kv.2)

/-- Embedding of `TokenCache.tokenIsValid`: after `token = token || {}`,
valid iff `token.expiresAt` is defined and
`token.expiresAt > getCurrentUnixTimeInSeconds() + this.latencyBuffer`.
The current time is passed explicitly as `now`. -/
def TokenCache.tokenIsValid (tc : TokenCache) (now : Int) (token : Option GToken) : Bool :=
  match token with
  | none => false
  | some t =>
    match t.expiresAt with
    | none => false
    | some e => e > now + tc.latencyBuffer

/-- Embedding of `TokenCache.getToken`: look the token up in the cache and
return it when `tokenIsValid` holds, `undefined` otherwise. -/
def TokenCache.getToken (tc : TokenCache) (now : Int) (tokenId : String) : Option GToken :=
  let token := tc.lookup tokenId
  if tc.tokenIsValid now token then token else none

/-! ## Consumer forwarder (`src/lib/forwarder.js` sources) -/

/-- The data context handed to `forwardData`: the routing key set
(`destinationIds`) plus the payload, here abstracted to a string. -/
structure DataCtx where
  destinationIds : List Nat
  data : String

/-- A registered consumer as `forwardData` uses it: its `id`, its
`filter.apply` (returning the deep-copied event), the effect of
`actionProcessor.processActions` on the event (which may throw: `Except.error`)
and the consumer handle invocation itself (which may throw). -/
structure PConsumer where
  id : Nat
  filterApply : DataCtx → String
  processActions : String → Except String String
  consume : String → Except String Unit

/-- The body of the promise `forwardData` wraps around one consumer:
build the context, `try { processActions } catch { log }`,
`try { consumer(context) } catch { log } finally { resolve() }`.
The returned value is the list of per-consumer exception log lines;
the promise itself always fulfills, hence always `Except.ok`. -/
def wrapConsumer (consumer : PConsumer) (dataCtx : DataCtx) : Except String (List String) :=
  let event0 := consumer.filterApply dataCtx
  let step1 :=
    match consumer.processActions event0 with
    | .ok e => (e, ([] : List String))
    | .error err => (event0, ["Error on attempt to process actions on consumer: " ++ err])
  let logs2 :=
    match consumer.consume step1.1 with
    | .ok _ => ([] : List String)
    | .error err => ["Error on attempt to forward data to consumer: " ++ err]
  .ok (step1.2 ++ logs2)

/-- `promiseUtil.allSettled`: resolves — never rejects — with the settlement
status of every promise in the list. -/
def allSettled (ps : List (Except String α)) : Except String (List (Except String α)) :=
  .ok ps

/-- Embedding of `forwardData`: resolve immediately when the consumer registry
does not hold an array; otherwise keep the consumers targeted by
`dataCtx.destinationIds` and settle all their wrapped invocations. -/
def forwardData (consumers : Option (List PConsumer)) (dataCtx : DataCtx) :
    Except String (List (Except String (List String))) :=
  match consumers with
  | none => .ok []
  | some cs =>
    let targeted := cs.filter (fun c => dataCtx.destinationIds.contains c.id)
    allSettled (targeted.map (fun c => wrapConsumer c dataCtx))

/-! ## Logger secret masking -/

/-- Modelled from the spec: the logger implementation (`src/lib/logger.js`) is
not among the provided sources, only its unit tests are. The spec says the
mask `*********` replaces any field whose key matches `{passphrase,
cipherText}` at any depth, and the tests extend this to fields inside embedded
JSON strings. A logged payload is modelled structurally: strings, objects
(ordered key/value chains), arrays, and `jsonStr`, a string field whose text is
itself serialized JSON (the masking regex operates on the final serialized
message, so such text is processed the same way). -/
inductive LogValue where
  | str (s : String)
  | objNil
  | objCons (key : String) (value : LogValue) (rest : LogValue)
  | arrNil
  | arrCons (head : LogValue) (rest : LogValue)
  | jsonStr (content : LogValue)
deriving DecidableEq

/-- The mask that replaces secret values in log output. -/
def MASK : String := "*********"

/-- The secret key set `{passphrase, cipherText}`. -/
def isSecretKey (k : String) : Bool :=
  k == "passphrase" || k == "cipherText"

/-- Modelled from the spec: the logger's masking pass — replace the value of
every field whose key is in the secret set with the mask, at any depth,
including inside embedded JSON strings. -/
def maskSecrets : LogValue → LogValue
  | .str s => .str s
  | .objNil => .objNil
  | .objCons k v rest =>
      .objCons k (if isSecretKey k then .str MASK else maskSecrets v) (maskSecrets rest)
  | .arrNil => .arrNil
  | .arrCons v rest => .arrCons (maskSecrets v) (maskSecrets rest)
  | .jsonStr c => .jsonStr (maskSecrets c)

/-- A payload is fully masked when every secret-keyed field, at any depth and
inside embedded JSON strings, carries exactly the mask string. -/
def allSecretsMasked : LogValue → Bool
  | .str _ => true
  | .objNil => true
  | .objCons k v rest =>
      (if isSecretKey k then v == LogValue.str MASK else allSecretsMasked v)
        && allSecretsMasked rest
  | .arrNil => true
  | .arrCons v rest => allSecretsMasked v && allSecretsMasked rest
  | .jsonStr c => allSecretsMasked c

/-! ## Data receiver restart policy -/

/-- The receiver state machine states named by the spec:
`NEW → STARTING → RUNNING → STOPPING → STOPPED`, with absorbing `DESTROYED`. -/
inductive ReceiverState where
  | NEW
  | STARTING
  | RUNNING
  | STOPPING
  | STOPPED
  | DESTROYED
deriving DecidableEq

/-- Restart budget: at most 10 consecutive restart attempts. -/
def MAX_RESTART_ATTEMPTS : Nat := 10

/-- The restart-relevant state of a data receiver: its lifecycle state and the
count of consecutive failed restart attempts. -/
structure DataReceiver where
  state : ReceiverState
  failedAttempts : Nat
deriving DecidableEq

/-- Modelled from the spec: the receiver implementation
(`src/lib/eventListener/tcpUdpDataReceiver.js` and its base class) is not
among the provided sources, only its unit tests are. One restart attempt:
a receiver already `DESTROYED` does nothing; a successful restart returns to
`RUNNING` and resets the consecutive-failure count; a failed restart
increments it, and on reaching the budget of 10 the receiver gives up and
transitions to the absorbing `DESTROYED` state. -/
def restartStep (r : DataReceiver) (succeeded : Bool) : DataReceiver :=
  if r.state = ReceiverState.DESTROYED then r
  else if succeeded then { state := ReceiverState.RUNNING, failedAttempts := 0 }
  else
    let fails := r.failedAttempts + 1
    if MAX_RESTART_ATTEMPTS <= fails then
      { state := ReceiverState.DESTROYED, failedAttempts := fails }
    else
      { state := ReceiverState.STOPPED, failedAttempts := fails }

/-- Run a sequence of restart attempts (each entry tells whether that attempt
would succeed) through `restartStep`. -/
def runRestarts (r : DataReceiver) (outcomes : List Bool) : DataReceiver :=
  outcomes.foldl restartStep r

/-- How many restart attempts are actually made over a sequence of potential
attempts: a `DESTROYED` receiver no longer attempts anything. -/
def attemptsMade : DataReceiver → List Bool → Nat
  | _, [] => 0
  | r, o :: os =>
      (if r.state = ReceiverState.DESTROYED then 0 else 1) + attemptsMade (restartStep r o) os

/-! ## Declaration resolver for pull consumers -/

/-- The implicit default namespace. -/
def defaultNamespace : String := "f5telemetry_default"

/-- A `Telemetry_System_Poller` object of a declaration: its name and its
`interval` (0 marks a pull-mode poller). -/
structure PollerDecl where
  name : String
  interval : Nat
deriving DecidableEq

/-- A `Telemetry_System` object of a declaration: its name, its `host` and the
poller names its `systemPoller` property references. -/
structure SystemDecl where
  name : String
  host : String
  systemPoller : List String
deriving DecidableEq

/-- A `Telemetry_Pull_Consumer` object of a declaration: its name and the
poller names its `systemPoller` property references. -/
structure PullConsumerDecl where
  name : String
  systemPoller : List String
deriving DecidableEq

/-- A declaration, restricted to the (enabled, default-namespace) object kinds
the pull-consumer resolution claims are about. -/
structure Declaration where
  pollers : List PollerDecl := []
  systems : List SystemDecl := []
  pullConsumers : List PullConsumerDecl := []
deriving DecidableEq

/-- The base (empty) declaration `{ class: 'Telemetry' }`. -/
def baseDeclaration : Declaration := {}

/-- A fully-qualified system-scoped poller id `<ns>::<system>::<poller>`. -/
def pollerId (ns sys poller : String) : String :=
  ns ++ "::" ++ sys ++ "::" ++ poller

/-- A system-scoped poller component produced by the resolver. -/
structure PollerComponent where
  id : String
  name : String
  systemName : String
  host : String
  interval : Nat
deriving DecidableEq

/-- A pull-consumer component produced by the resolver. -/
structure PullConsumerComponent where
  id : String
  name : String
deriving DecidableEq

/-- A synthesized `Telemetry_Pull_Consumer_System_Poller_Group` component. -/
structure GroupComponent where
  id : String
  name : String
  pullConsumer : String
  systemPollers : List String
deriving DecidableEq

/-- A component of the normalized configuration. -/
inductive Component where
  | poller (p : PollerComponent)
  | pullConsumer (c : PullConsumerComponent)
  | pollerGroup (g : GroupComponent)
deriving DecidableEq

/-- The normalized configuration: the flat component list and the
producer-id → consumer-ids mapping table. -/
structure Config where
  components : List Component := []
  mappings : List (String × List String) := []
deriving DecidableEq

/-- Does any declared system reference the poller name? -/
def referencedByAnySystem (d : Declaration) (pollerName : String) : Bool :=
  d.systems.any (fun s => s.systemPoller.contains pollerName)

/-- Modelled from the spec: the resolver (`configUtil.normalizeDeclaration` in
`src/lib/utils/config.js`) is not among the provided sources, only its test
data is. For every declared poller that no system references, a system
component is synthesized whose name equals the poller name and whose host
defaults to `localhost`. -/
def synthesizedSystems (d : Declaration) : List SystemDecl :=
  (d.pollers.filter (fun p => !(referencedByAnySystem d p.name))).map
    (fun p => { name := p.name, host := "localhost", systemPoller := [p.name] })

/-- All systems after synthesis: the declared ones, in declaration order,
followed by the synthesized ones. -/
def allSystems (d : Declaration) : List SystemDecl :=
  d.systems ++ synthesizedSystems d

/-- Modelled from the spec: unfold every system into one system-scoped poller
component per referenced poller, each with id `<ns>::<systemName>::<pollerName>`,
in system declaration order. -/
def resolvePollerComponents (d : Declaration) : List PollerComponent :=
  (allSystems d).foldr
    (fun s acc =>
      (s.systemPoller.filterMap (fun pname =>
        (d.pollers.find? (fun p => p.name == pname)).map (fun p =>
          { id := pollerId defaultNamespace s.name pname
            name := pname
            systemName := s.name
            host := s.host
            interval := p.interval }))) ++ acc)
    []

/-- Order-preserving de-duplication, keeping the first occurrence. -/
def dedupKeepFirst (xs : List String) : List String :=
  xs.foldl (fun acc x => if acc.contains x then acc else acc ++ [x]) []

/-- Modelled from the spec: for each Pull Consumer, synthesize one
`Telemetry_Pull_Consumer_System_Poller_Group` component, with id
`<ns>::Telemetry_Pull_Consumer_System_Poller_Group_<consumerName>`, carrying
the ordered, de-duplicated list of the fully-qualified ids of the resolved
poller components whose poller name the consumer references. -/
def resolveGroup (d : Declaration) (c : PullConsumerDecl) : GroupComponent :=
  let gname := "Telemetry_Pull_Consumer_System_Poller_Group_" ++ c.name
  { id := defaultNamespace ++ "::" ++ gname
    name := gname
    pullConsumer := defaultNamespace ++ "::" ++ c.name
    systemPollers := dedupKeepFirst
      (((resolvePollerComponents d).filter
          (fun pc => c.systemPoller.contains pc.name)).map (fun pc => pc.id)) }

/-- Modelled from the spec: full resolution of a declaration into the
normalized configuration — poller components, pull-consumer components and
synthesized pull groups, plus the mapping from each group id to its pull
consumer's id. -/
def normalizeDeclaration (d : Declaration) : Config :=
  let pollerComps := (resolvePollerComponents d).map Component.poller
  let consumerComps := d.pullConsumers.map (fun c =>
    Component.pullConsumer { id := defaultNamespace ++ "::" ++ c.name, name := c.name })
  let groups := d.pullConsumers.map (fun c => resolveGroup d c)
  { components := pollerComps ++ consumerComps ++ groups.map Component.pollerGroup
    mappings := groups.map (fun g => (g.id, [g.pullConsumer])) }

/-- Is the component a synthesized pull-consumer system-poller group? -/
def isGroupComponent : Component → Bool
  | .pollerGroup _ => true
  | _ => false

/-- The declaration of the pull-consumer resolution scenario:
`My_Pull_Consumer.systemPoller = ["Pull_Poller_1","Pull_Poller_2","Pull_Poller_3"]`,
`My_System` references `Pull_Poller_1`, `My_System_2` references
`Pull_Poller_2`, `My_System_3` references `Pull_Poller_1` and `Pull_Poller_2`;
all pollers have interval 0 and live in the default namespace. -/
def pullConsumerScenario : Declaration :=
  { pollers := [⟨"Pull_Poller_1", 0⟩, ⟨"Pull_Poller_2", 0⟩, ⟨"Pull_Poller_3", 0⟩]
    systems := [⟨"My_System", "host1", ["Pull_Poller_1"]⟩,
                ⟨"My_System_2", "host1", ["Pull_Poller_2"]⟩,
                ⟨"My_System_3", "host1", ["Pull_Poller_1", "Pull_Poller_2"]⟩]
    pullConsumers := [⟨"My_Pull_Consumer",
                      ["Pull_Poller_1", "Pull_Poller_2", "Pull_Poller_3"]⟩] }

/-! ## Config worker (`src/unnamed/part_000`, `ConfigWorker`) -/

/-- The config worker state the claims are about: the persisted declaration
blob (`{raw: ...}` under the `config` storage key) and the in-memory
normalized configuration. -/
structure WorkerState where
  storageRaw : Option Declaration
  currentConfig : Config
deriving DecidableEq

/-- Embedding of `ConfigWorker.processDeclaration` for a full declaration
(no `namespaceToUpdate`): validate the declaration (schema validation is
external AJV code, passed as the predicate `valid`; validation failure
rejects with a `ValidationError` and changes nothing), normalize the expanded
declaration into the new current configuration, persist the validated raw
declaration when `save` is set, and resolve with the validated declaration. -/
def processDeclaration (valid : Declaration → Bool) (st : WorkerState)
    (declaration : Declaration) (save : Bool) : Except String (WorkerState × Declaration) :=
  if valid declaration then
    .ok ({ storageRaw := if save then some declaration else st.storageRaw
           currentConfig := normalizeDeclaration declaration }, declaration)
  else
    .error "ValidationError"

/-- Embedding of `ConfigWorker.load`: process the stored declaration (the base
declaration when storage is empty); on failure, fall back to processing the
base empty declaration with `save: false`. -/
def load (valid : Declaration → Bool) (st : WorkerState) :
    Except String (WorkerState × Declaration) :=
  let storedDeclaration := st.storageRaw.getD baseDeclaration
  match processDeclaration valid st storedDeclaration true with
  | .ok result => .ok result
  | .error _ => processDeclaration valid st baseDeclaration false

/-! ## Helper lemmas -/

/-- Reading a key just assigned by `objSet` yields the assigned element;
reading any other key is unaffected. -/
theorem objGet_objSet (m : List (String × JSEntry)) (k : String) (v : JSEntry)
    (k' : String) :
    objGet (objSet m k v) k' = if k == k' then some v else objGet m k' := by
  induction m with
  | nil => simp [objSet, objGet]
  | cons kv rest ih =>
    rcases kv with ⟨a, b⟩
    by_cases hak : a = k
    · subst hak
      by_cases h : a = k' <;> simp [objSet, objGet, h]
    · by_cases hak' : a = k'
      · subst hak'
        have hkk' : ¬(k = a) := fun h => hak h.symm
        simp [objSet, objGet, hak, hkk']
      · simp [objSet, objGet, hak, hak', ih]

/-- `objSet` grows the association list by at most one binding. -/
theorem length_objSet (m : List (String × JSEntry)) (k : String) (v : JSEntry) :
    (objSet m k v).length ≤ m.length + 1 := by
  induction m with
  | nil => simp [objSet]
  | cons kv rest ih =>
    by_cases hk : (kv.1 == k) = true
    · simp [objSet, hk]
    · have hk' : (kv.1 == k) = false := by simpa using hk
      simp only [objSet, hk', Bool.false_eq_true, if_false, List.length_cons]
      omega

/-- `getLast?` of a cons, phrased through the tail's `getLast?`. -/
theorem getLast?_cons_elim (i : JSEntry) (l : List JSEntry) :
    (i :: l).getLast? = (l.getLast?).elim (some i) some := by
  cases l with
  | nil => simp
  | cons b t =>
    rw [List.getLast?_cons_cons, List.getLast?_eq_getLast (b :: t) (by simp)]
    rfl

/-- The fold inside `_convertArrayToMap`, with a generalized accumulator:
looking any key up in the result yields the last array element mapped to that
key, falling back to the accumulator when no element maps to it. -/
theorem convertFold_objGet (data : List JSEntry) (key : KeySpec) (opts : ConvertOptions)
    (acc : List (String × JSEntry)) (name : String) :
    objGet (data.foldl (fun ret i => objSet ret (computeKeyName opts key i) i) acc) name
      = ((data.filter (fun i => computeKeyName opts key i == name)).getLast?).elim
          (objGet acc name) some := by
  induction data generalizing acc with
  | nil => simp
  | cons i rest ih =>
    simp only [List.foldl_cons, List.filter_cons]
    by_cases hk : (computeKeyName opts key i == name) = true
    · simp only [hk, if_true]
      rw [ih, getLast?_cons_elim]
      cases hlast : (rest.filter (fun j => computeKeyName opts key j == name)).getLast? with
      | none =>
        simp only [hlast, Option.elim]
        rw [objGet_objSet, if_pos hk]
      | some z => simp [hlast]
    · have hk' : (computeKeyName opts key i == name) = false := by
        simpa using hk
      simp only [hk', Bool.false_eq_true, if_false]
      rw [ih, objGet_objSet, if_neg hk]

/-- The fold inside `_convertArrayToMap` adds at most one binding per array
element. -/
theorem convertFold_length (data : List JSEntry) (key : KeySpec) (opts : ConvertOptions)
    (acc : List (String × JSEntry)) :
    (data.foldl (fun ret i => objSet ret (computeKeyName opts key i) i) acc).length
      ≤ acc.length + data.length := by
  induction data generalizing acc with
  | nil => simp
  | cons i rest ih =>
    simp only [List.foldl_cons, List.length_cons]
    calc (rest.foldl (fun ret i => objSet ret (computeKeyName opts key i) i)
            (objSet acc (computeKeyName opts key i) i)).length
        ≤ (objSet acc (computeKeyName opts key i) i).length + rest.length := ih _
      _ ≤ acc.length + 1 + rest.length := by
            have := length_objSet acc (computeKeyName opts key i) i
            omega
      _ = acc.length + (rest.length + 1) := by omega

/-- All-`none` policies leave `getLastAsmChange`'s accumulator at `0`. -/
theorem foldl_lastAsmStep_none (ps : List AsmPolicy)
    (h : ∀ p ∈ ps, p.parsedVersionDatetime = none) (acc : Int) :
    ps.foldl lastAsmStep acc = acc := by
  induction ps generalizing acc with
  | nil => rfl
  | cons p rest ih =>
    have hp := h p (by simp)
    simp only [List.foldl_cons, lastAsmStep, hp]
    exact ih (fun q hq => h q (by simp [hq])) acc

/-- `toISOString` never returns the empty string: it always ends in `Z`. -/
theorem toISOString_ne_empty (z : Int) : toISOString z ≠ "" := by
  intro hz
  have hlen := congrArg String.length hz
  rw [show toISOString z
      = (toString (civilFromDays (z.toNat / 86400000)).1 ++ "-"
          ++ pad2 (civilFromDays (z.toNat / 86400000)).2.1 ++ "-"
          ++ pad2 (civilFromDays (z.toNat / 86400000)).2.2
          ++ "T" ++ pad2 (z.toNat % 86400000 / 3600000)
          ++ ":" ++ pad2 (z.toNat % 86400000 % 3600000 / 60000)
          ++ ":" ++ pad2 (z.toNat % 86400000 % 60000 / 1000)
          ++ "." ++ pad3 (z.toNat % 86400000 % 1000) ++ "Z") from rfl] at hlen
  simp only [String.length_append] at hlen
  have hZ : ("Z" : String).length = 1 := rfl
  have hE : ("" : String).length = 0 := rfl
  omega

/-! ## Claim theorems -/

/-- Claim C8: MAC normalization uppercases each colon-separated octet and
left-pads one-character octets to two characters; a string with no `:` passes
through unchanged; `"a:b:cc:d:ee:f"` maps to `"0A:0B:CC:0D:EE:0F"` and
`"no-colons"` stays `"no-colons"`. -/
theorem formatMACAddress_spec :
    (∀ s : String, s.toList.contains ':' = false → _formatMACAddress s = s)
    ∧ (∀ s : String, s.toList.contains ':' = true →
        (_formatMACAddress s).toList
          = joinWithColon ((splitOnChar ':' s.toList).map (fun octet =>
              if (octet.map Char.toUpper).length == 1
              then '0' :: octet.map Char.toUpper
              else octet.map Char.toUpper)))
    ∧ _formatMACAddress "a:b:cc:d:ee:f" = "0A:0B:CC:0D:EE:0F"
    ∧ _formatMACAddress "no-colons" = "no-colons" := by
  refine ⟨fun s h => ?_, fun s h => ?_, by decide, by decide⟩
  · unfold _formatMACAddress
    rw [h]
    rfl
  · unfold _formatMACAddress
    rw [h]
    rfl

/-- Witness for claim C8 at concrete inputs. -/
theorem formatMACAddress_spec_witness :
    _formatMACAddress "no-colons" = "no-colons"
    ∧ (_formatMACAddress "a:b").toList
        = joinWithColon ((splitOnChar ':' "a:b".toList).map (fun octet =>
            if (octet.map Char.toUpper).length == 1
            then '0' :: octet.map Char.toUpper
            else octet.map Char.toUpper)) :=
  ⟨formatMACAddress_spec.1 "no-colons" (by decide),
   formatMACAddress_spec.2.1 "a:b" (by decide)⟩

/-- Claim C9: for a non-empty policy list in which no `versionDatetime`
parses, `getLastAsmChange` returns the epoch rendered as ISO-8601
(`1970-01-01T00:00:00.000Z`); the empty string is returned exactly for the
empty list. -/
theorem getLastAsmChange_epoch_on_unparseable :
    (∀ ps : List AsmPolicy, ps ≠ [] →
      (∀ p ∈ ps, p.parsedVersionDatetime = none) →
      getLastAsmChange ps = "1970-01-01T00:00:00.000Z")
    ∧ (∀ ps : List AsmPolicy, ps ≠ [] → getLastAsmChange ps ≠ "")
    ∧ getLastAsmChange [] = "" := by
  refine ⟨fun ps hne hnone => ?_, fun ps hne => ?_, rfl⟩
  · have hlen : (ps.length == 0) = false := by
      cases ps with
      | nil => exact absurd rfl hne
      | cons p rest => rfl
    unfold getLastAsmChange
    rw [hlen, if_neg (by simp), foldl_lastAsmStep_none ps hnone 0]
    decide
  · have hlen : (ps.length == 0) = false := by
      cases ps with
      | nil => exact absurd rfl hne
      | cons p rest => rfl
    unfold getLastAsmChange
    rw [hlen, if_neg (by simp)]
    exact toISOString_ne_empty _

/-- Witness for claim C9 at a concrete one-element list. -/
theorem getLastAsmChange_epoch_witness :
    getLastAsmChange [⟨none⟩] = "1970-01-01T00:00:00.000Z" :=
  getLastAsmChange_epoch_on_unparseable.1 [⟨none⟩] (by simp) (by simp)

/-- Claim C10: `_convertArrayToMap` is total, and when several array elements
share a computed key name the resulting map binds that name to the last such
element in array order; the map never has more entries than the array has
elements. -/
theorem convertArrayToMap_last_write_wins
    (data : List JSEntry) (key : KeySpec) (opts : ConvertOptions) (name : String) :
    objGet (_convertArrayToMap data key opts) name
      = (data.filter (fun i => computeKeyName opts key i == name)).getLast?
    ∧ (_convertArrayToMap data key opts).length ≤ data.length := by
  constructor
  · rw [_convertArrayToMap, convertFold_objGet]
    cases (data.filter (fun i => computeKeyName opts key i == name)).getLast? with
    | none => simp [objGet, List.find?]
    | some z => rfl
  · have := convertFold_length data key opts []
    simpa using this

/-- Claim C1: for the pull-consumer scenario declaration, the resolver
synthesizes exactly one `Telemetry_Pull_Consumer_System_Poller_Group`
component, whose ordered `systemPollers` list is exactly the five claimed
fully-qualified poller ids, and for the bare reference `Pull_Poller_3` a
system named `Pull_Poller_3` with host `localhost` is synthesized. -/
theorem pullConsumer_group_resolution :
    ((normalizeDeclaration pullConsumerScenario).components.filter isGroupComponent
      = [Component.pollerGroup
          { id := "f5telemetry_default::Telemetry_Pull_Consumer_System_Poller_Group_My_Pull_Consumer"
            name := "Telemetry_Pull_Consumer_System_Poller_Group_My_Pull_Consumer"
            pullConsumer := "f5telemetry_default::My_Pull_Consumer"
            systemPollers :=
              ["f5telemetry_default::My_System::Pull_Poller_1",
               "f5telemetry_default::My_System_2::Pull_Poller_2",
               "f5telemetry_default::My_System_3::Pull_Poller_1",
               "f5telemetry_default::My_System_3::Pull_Poller_2",
               "f5telemetry_default::Pull_Poller_3::Pull_Poller_3"] }])
    ∧ synthesizedSystems pullConsumerScenario
        = [{ name := "Pull_Poller_3", host := "localhost",
             systemPoller := ["Pull_Poller_3"] }] := by
  constructor
  · rfl
  · rfl

/-- Claim C2: processing the same valid declaration twice in a row succeeds
both times and yields identical components lists, mappings tables and
persisted raw declarations — the normalized configuration is a function of
the declaration alone. -/
theorem processDeclaration_reapply_deterministic
    (valid : Declaration → Bool) (d : Declaration) (st : WorkerState)
    (h : valid d = true) :
    ∃ st1 st2,
      processDeclaration valid st d true = .ok (st1, d)
      ∧ processDeclaration valid st1 d true = .ok (st2, d)
      ∧ st1.currentConfig.components = st2.currentConfig.components
      ∧ st1.currentConfig.mappings = st2.currentConfig.mappings
      ∧ st1.storageRaw = st2.storageRaw := by
  refine ⟨{ storageRaw := some d, currentConfig := normalizeDeclaration d },
          { storageRaw := some d, currentConfig := normalizeDeclaration d },
          ?_, ?_, rfl, rfl, rfl⟩ <;>
    simp [processDeclaration, h]

/-- Witness for claim C2 at the base declaration and an all-accepting
validator. -/
theorem processDeclaration_reapply_deterministic_witness :
    ∃ st1 st2,
      processDeclaration (fun _ => true) ⟨none, {}⟩ baseDeclaration true
        = .ok (st1, baseDeclaration)
      ∧ processDeclaration (fun _ => true) st1 baseDeclaration true
        = .ok (st2, baseDeclaration)
      ∧ st1.currentConfig.components = st2.currentConfig.components
      ∧ st1.currentConfig.mappings = st2.currentConfig.mappings
      ∧ st1.storageRaw = st2.storageRaw :=
  processDeclaration_reapply_deterministic (fun _ => true) baseDeclaration ⟨none, {}⟩ rfl

/-- Claim C3: `forwardData` always resolves, settling only after every
targeted consumer's wrapped invocation has settled (it maps over all of
them), and each wrapped invocation itself always fulfills — exceptions from
action processing or from the consumer handle are caught and logged,
never propagated. -/
theorem forwardData_settles_all (cs : List PConsumer) (dataCtx : DataCtx) :
    forwardData (some cs) dataCtx
      = .ok ((cs.filter (fun c => dataCtx.destinationIds.contains c.id)).map
              (fun c => wrapConsumer c dataCtx))
    ∧ ∀ c : PConsumer, ∃ logs, wrapConsumer c dataCtx = .ok logs := by
  exact ⟨rfl, fun c => ⟨_, rfl⟩⟩

/-- Claim C4: `latencyBuffer` defaults to 60 seconds, and `getToken` returns
the cached token exactly when an entry for the id exists whose `expiresAt` is
defined and strictly greater than the current time plus the latency buffer;
otherwise it returns `undefined`. -/
theorem tokenCache_getToken_valid_iff :
    TokenCache.new.latencyBuffer = 60
    ∧ ∀ (tc : TokenCache) (now : Int) (tokenId : String) (t : GToken),
        tc.getToken now tokenId = some t
          ↔ tc.lookup tokenId = some t
            ∧ ∃ e, t.expiresAt = some e ∧ e > now + tc.latencyBuffer := by
  refine ⟨rfl, fun tc now tokenId t => ?_⟩
  unfold TokenCache.getToken TokenCache.tokenIsValid
  cases hl : tc.lookup tokenId with
  | none => simp
  | some tok =>
    cases he : tok.expiresAt with
    | none =>
      simp only [he]
      constructor
      · intro h
        simp at h
      · rintro ⟨ht, e, hee, -⟩
        injection ht with ht
        subst ht
        rw [he] at hee
        exact absurd hee (by simp)
    | some e =>
      simp only [he]
      by_cases hgt : e > now + tc.latencyBuffer
      · rw [decide_eq_true hgt]
        simp only [if_true]
        constructor
        · intro h
          injection h with h
          subst h
          exact ⟨rfl, e, he, hgt⟩
        · rintro ⟨ht, -⟩
          exact ht
      · rw [decide_eq_false hgt]
        simp only [Bool.false_eq_true, if_false]
        constructor
        · intro h
          simp at h
        · rintro ⟨ht, e', hee, hgt'⟩
          injection ht with ht
          subst ht
          rw [he] at hee
          injection hee with hee
          subst hee
          exact absurd hgt' hgt

/-- Claim C5: when validating the stored declaration fails and the base empty
declaration validates, `load` still resolves, with the fallback processed
with `save: false`, so the persisted declaration blob is left unchanged and
the base declaration is returned. -/
theorem load_fallback_preserves_storage
    (valid : Declaration → Bool) (st : WorkerState)
    (hstored : valid (st.storageRaw.getD baseDeclaration) = false)
    (hbase : valid baseDeclaration = true) :
    load valid st
      = .ok ({ storageRaw := st.storageRaw
               currentConfig := normalizeDeclaration baseDeclaration },
             baseDeclaration) := by
  simp [load, processDeclaration, hstored, hbase]

/-- Witness for claim C5: a validator that accepts only system-free
declarations, with a stored declaration holding one system. -/
theorem load_fallback_preserves_storage_witness :
    load (fun d => d.systems.isEmpty)
        ⟨some { systems := [⟨"S", "h", []⟩] }, {}⟩
      = .ok ({ storageRaw := some { systems := [⟨"S", "h", []⟩] }
               currentConfig := normalizeDeclaration baseDeclaration },
             baseDeclaration) :=
  load_fallback_preserves_storage (fun d => d.systems.isEmpty)
    ⟨some { systems := [⟨"S", "h", []⟩] }, {}⟩ rfl rfl

/-- Claim C6: after the logger's masking pass, every field keyed
`passphrase` or `cipherText`, at any depth and inside embedded JSON strings,
carries exactly the mask `*********`, and masking an already-masked payload
leaves it unchanged. -/
theorem maskSecrets_masks_and_idempotent (payload : LogValue) :
    allSecretsMasked (maskSecrets payload) = true
    ∧ maskSecrets (maskSecrets payload) = maskSecrets payload := by
  induction payload with
  | str s => exact ⟨rfl, rfl⟩
  | objNil => exact ⟨rfl, rfl⟩
  | objCons k v rest ihv ihrest =>
    by_cases hk : isSecretKey k = true <;>
      simp [maskSecrets, allSecretsMasked, hk, ihv.1, ihv.2, ihrest.1, ihrest.2]
  | arrNil => exact ⟨rfl, rfl⟩
  | arrCons v rest ihv ihrest =>
    simp [maskSecrets, allSecretsMasked, ihv.1, ihv.2, ihrest.1, ihrest.2]
  | jsonStr c ih =>
    simp [maskSecrets, allSecretsMasked, ih.1, ih.2]

/-- A `DESTROYED` receiver is absorbing: no sequence of further restart
outcomes changes it, and it makes no further attempts. -/
theorem destroyed_absorbing (r : DataReceiver)
    (h : r.state = ReceiverState.DESTROYED) (outcomes : List Bool) :
    runRestarts r outcomes = r ∧ attemptsMade r outcomes = 0 := by
  induction outcomes with
  | nil => exact ⟨rfl, rfl⟩
  | cons o os ih =>
    have hstep : restartStep r o = r := by
      unfold restartStep
      rw [h]
      simp
    constructor
    · show runRestarts (restartStep r o) os = r
      rw [hstep]
      exact ih.1
    · show (if r.state = ReceiverState.DESTROYED then 0 else 1)
          + attemptsMade (restartStep r o) os = 0
      rw [if_pos h, hstep, ih.2]

/-- Key lemma for the restart bound: from `STOPPED` with `f < 10` consecutive
failures already recorded, any long enough all-failure sequence drives the
receiver to `DESTROYED` with exactly `10 - f` further attempts made. -/
theorem run_failures_destroys (m f : Nat) (hf : f < 10) (hm : 10 ≤ f + m) :
    runRestarts ⟨ReceiverState.STOPPED, f⟩ (List.replicate m false)
      = ⟨ReceiverState.DESTROYED, 10⟩
    ∧ attemptsMade ⟨ReceiverState.STOPPED, f⟩ (List.replicate m false) = 10 - f := by
  induction m generalizing f with
  | zero => omega
  | succ m ih =>
    have hstep : restartStep ⟨ReceiverState.STOPPED, f⟩ false
        = if MAX_RESTART_ATTEMPTS <= f + 1
          then ⟨ReceiverState.DESTROYED, f + 1⟩
          else ⟨ReceiverState.STOPPED, f + 1⟩ := by
      unfold restartStep
      simp
    by_cases hnine : f = 9
    · subst hnine
      have hd : restartStep ⟨ReceiverState.STOPPED, 9⟩ false
          = ⟨ReceiverState.DESTROYED, 10⟩ := by
        rw [hstep]
        rfl
      have habs := destroyed_absorbing ⟨ReceiverState.DESTROYED, 10⟩ rfl
        (List.replicate m false)
      constructor
      · show runRestarts (restartStep ⟨ReceiverState.STOPPED, 9⟩ false)
            (List.replicate m false) = ⟨ReceiverState.DESTROYED, 10⟩
        rw [hd]
        exact habs.1
      · show (if (ReceiverState.STOPPED = ReceiverState.DESTROYED) then 0 else 1)
            + attemptsMade (restartStep ⟨ReceiverState.STOPPED, 9⟩ false)
                (List.replicate m false) = 10 - 9
        rw [if_neg (by simp), hd, habs.2]
    · have hflt : f + 1 < 10 := by omega
      have hd : restartStep ⟨ReceiverState.STOPPED, f⟩ false
          = ⟨ReceiverState.STOPPED, f + 1⟩ := by
        rw [hstep, if_neg (by unfold MAX_RESTART_ATTEMPTS; omega)]
      have hrec := ih (f + 1) hflt (by omega)
      constructor
      · show runRestarts (restartStep ⟨ReceiverState.STOPPED, f⟩ false)
            (List.replicate m false) = ⟨ReceiverState.DESTROYED, 10⟩
        rw [hd]
        exact hrec.1
      · show (if (ReceiverState.STOPPED = ReceiverState.DESTROYED) then 0 else 1)
            + attemptsMade (restartStep ⟨ReceiverState.STOPPED, f⟩ false)
                (List.replicate m false) = 10 - f
        rw [if_neg (by simp), hd, hrec.2]
        omega

/-- Claim C7: a receiver whose restarts keep failing makes exactly 10
consecutive restart attempts, then transitions to the absorbing `DESTROYED`
state: further outcomes — even successful ones — leave it `DESTROYED`, with
no further attempts and no return to `RUNNING`. -/
theorem receiver_restart_bounded (n : Nat) (extra : List Bool) :
    (runRestarts ⟨ReceiverState.STOPPED, 0⟩ (List.replicate (10 + n) false)).state
        = ReceiverState.DESTROYED
    ∧ attemptsMade ⟨ReceiverState.STOPPED, 0⟩ (List.replicate (10 + n) false) = 10
    ∧ runRestarts (runRestarts ⟨ReceiverState.STOPPED, 0⟩
          (List.replicate (10 + n) false)) extra
        = runRestarts ⟨ReceiverState.STOPPED, 0⟩ (List.replicate (10 + n) false)
    ∧ attemptsMade (runRestarts ⟨ReceiverState.STOPPED, 0⟩
          (List.replicate (10 + n) false)) extra = 0 := by
  have hrun := run_failures_destroys (10 + n) 0 (by omega) (by omega)
  have habs := destroyed_absorbing ⟨ReceiverState.DESTROYED, 10⟩ rfl extra
  refine ⟨?_, ?_, ?_, ?_⟩
  · rw [hrun.1]
  · rw [hrun.2]
  · rw [hrun.1, habs.1]
  · rw [hrun.1, habs.2]

end F5TS
